import Mathlib

/-!
Verification of the Registration Credential Engine in `server/index.js` of the
College Event Management System.

The engine issues HMAC-SHA256-signed QR credentials per event registration and
redeems them at scan time.  This file gives a shallow embedding of the relevant
server code and proves or refutes the specification claims about it.

Modelling conventions:
- JS strings are modelled as lists of byte values (`Str := List Nat`); every
  string the engine handles is ASCII.
- Node `Buffer`s are lists of byte values.
- JS `Date` values are natural numbers (milliseconds since the epoch).  ISO
  timestamp strings are modelled as the decimal digit string of the epoch
  value: an injective encoding whose parse/format round trip and ordering agree
  with the fixed-format ISO strings the server produces.
- A JS object field that may be `undefined` is an `Option`; template-literal
  interpolation maps `none` to the string "undefined", exactly as JS prints an
  undefined field.
- MongoDB collections are lists; `findOne` is `List.find?` on the query
  predicate, `save` of a fetched document overwrites the first matching stored
  document with the in-memory copy, `findOneAndDelete` removes the first match.
- Each request handler is a function from the database value (plus the current
  time and the request) to a response and the new database value.  Handlers run
  atomically in this sequential model; for the claim about concurrent
  registration the handler is additionally split at its `await` boundary into a
  read phase and a write phase so that interleavings can be examined.
-/

/-! ## SHA-256 over byte lists (32-bit words as `Nat` with explicit mod) -/

def w32 (x : Nat) : Nat := x % 4294967296

def rotr32 (n x : Nat) : Nat := w32 ((x >>> n) ||| (x <<< (32 - n)))

def sigmaBig0 (x : Nat) : Nat := (rotr32 2 x) ^^^ (rotr32 13 x) ^^^ (rotr32 22 x)
def sigmaBig1 (x : Nat) : Nat := (rotr32 6 x) ^^^ (rotr32 11 x) ^^^ (rotr32 25 x)
def sigmaSmall0 (x : Nat) : Nat := (rotr32 7 x) ^^^ (rotr32 18 x) ^^^ (x >>> 3)
def sigmaSmall1 (x : Nat) : Nat := (rotr32 17 x) ^^^ (rotr32 19 x) ^^^ (x >>> 10)

def shaK : List Nat :=
  [1116352408, 1899447441, 3049323471, 3921009573,
   961987163, 1508970993, 2453635748, 2870763221,
   3624381080, 310598401, 607225278, 1426881987,
   1925078388, 2162078206, 2614888103, 3248222580,
   3835390401, 4022224774, 264347078, 604807628,
   770255983, 1249150122, 1555081692, 1996064986,
   2554220882, 2821834349, 2952996808, 3210313671,
   3336571891, 3584528711, 113926993, 338241895,
   666307205, 773529912, 1294757372, 1396182291,
   1695183700, 1986661051, 2177026350, 2456956037,
   2730485921, 2820302411, 3259730800, 3345764771,
   3516065817, 3600352804, 4094571909, 275423344,
   430227734, 506948616, 659060556, 883997877,
   958139571, 1322822218, 1537002063, 1747873779,
   1955562222, 2024104815, 2227730452, 2361852424,
   2428436474, 2756734187, 3204031479, 3329325298]

structure Hash8 where
  a : Nat
  b : Nat
  c : Nat
  d : Nat
  e : Nat
  f : Nat
  g : Nat
  h : Nat
deriving DecidableEq

def shaInit : Hash8 :=
  ⟨1779033703, 3144134277, 1013904242, 2773480762,
   1359893119, 2600822924, 528734635, 1541459225⟩

/-- Message schedule: starting from the 16 block words (given reversed in
`acc`), generate `n` further words; the result lists all words in order. -/
def extendSchedule : Nat → List Nat → List Nat
  | 0, acc => acc.reverse
  | n+1, acc =>
    let w2 := acc.getD 1 0
    let w7 := acc.getD 6 0
    let w15 := acc.getD 14 0
    let w16 := acc.getD 15 0
    extendSchedule n ((w32 (sigmaSmall1 w2 + w7 + sigmaSmall0 w15 + w16)) :: acc)

def roundStep (st : Hash8) (kw : Nat × Nat) : Hash8 :=
  let t1 := w32 (st.h + sigmaBig1 st.e + ((st.e &&& st.f) ^^^ ((st.e ^^^ 4294967295) &&& st.g)) + kw.1 + kw.2)
  let t2 := w32 (sigmaBig0 st.a + ((st.a &&& st.b) ^^^ (st.a &&& st.c) ^^^ (st.b &&& st.c)))
  ⟨w32 (t1 + t2), st.a, st.b, st.c, w32 (st.d + t1), st.e, st.f, st.g⟩

def compress (st : Hash8) (block : List Nat) : Hash8 :=
  let ws := extendSchedule 48 block.reverse
  let r := (shaK.zip ws).foldl roundStep st
  ⟨w32 (st.a + r.a), w32 (st.b + r.b), w32 (st.c + r.c), w32 (st.d + r.d),
   w32 (st.e + r.e), w32 (st.f + r.f), w32 (st.g + r.g), w32 (st.h + r.h)⟩

def bytesToWords : List Nat → List Nat
  | b0 :: b1 :: b2 :: b3 :: rest => (b0 <<< 24 ||| b1 <<< 16 ||| b2 <<< 8 ||| b3) :: bytesToWords rest
  | _ => []

def chunkBlocks : List Nat → List (List Nat)
  | w0 :: w1 :: w2 :: w3 :: w4 :: w5 :: w6 :: w7 :: w8 :: w9 :: w10 :: w11 :: w12 :: w13 :: w14 :: w15 :: rest =>
    [w0, w1, w2, w3, w4, w5, w6, w7, w8, w9, w10, w11, w12, w13, w14, w15] :: chunkBlocks rest
  | _ => []

def padMessage (msg : List Nat) : List Nat :=
  let len := msg.length
  let zeros := (64 - ((len + 9) % 64)) % 64
  msg ++ [128] ++ List.replicate zeros 0 ++
    [(len * 8) >>> 56 % 256, (len * 8) >>> 48 % 256, (len * 8) >>> 40 % 256, (len * 8) >>> 32 % 256,
     (len * 8) >>> 24 % 256, (len * 8) >>> 16 % 256, (len * 8) >>> 8 % 256, (len * 8) % 256]

def wordBytes (x : Nat) : List Nat :=
  [(x >>> 24) % 256, (x >>> 16) % 256, (x >>> 8) % 256, x % 256]

def hashBytes (st : Hash8) : List Nat :=
  wordBytes st.a ++ wordBytes st.b ++ wordBytes st.c ++ wordBytes st.d ++
  wordBytes st.e ++ wordBytes st.f ++ wordBytes st.g ++ wordBytes st.h

def sha256 (msg : List Nat) : List Nat :=
  hashBytes ((chunkBlocks (bytesToWords (padMessage msg))).foldl compress shaInit)

set_option maxRecDepth 100000

/-- FIPS 180-4 test vector for the empty message. -/
example : sha256 [] =
  [0xe3, 0xb0, 0xc4, 0x42, 0x98, 0xfc, 0x1c, 0x14, 0x9a, 0xfb, 0xf4, 0xc8, 0x99, 0x6f, 0xb9, 0x24,
   0x27, 0xae, 0x41, 0xe4, 0x64, 0x9b, 0x93, 0x4c, 0xa4, 0x95, 0x99, 0x1b, 0x78, 0x52, 0xb8, 0x55] := by
  decide

/-! ## Strings, HMAC, and the QR secret -/

/-- JS strings as byte lists; every string in this development is ASCII. -/
abbrev Str := List Nat

/-- Byte list of a Lean string literal (ASCII only). -/
def strBytes (s : String) : Str := s.data.map Char.toNat

/-- HMAC-SHA256 (RFC 2104) for keys of at most one block, which covers the QR
secret used by the server. -/
def hmacSha256 (key msg : List Nat) : List Nat :=
  let k0 := key ++ List.replicate (64 - key.length) 0
  let ipad := k0.map (fun b => b ^^^ 54)
  let opad := k0.map (fun b => b ^^^ 92)
  sha256 (opad ++ sha256 (ipad ++ msg))

/-- The signing secret: `process.env.QR_CODE_SECRET` falls back to this default
when the variable is unset, which is the shipped configuration. -/
def QR_SECRET : Str := strBytes "your_secure_qr_secret_key_change_in_production"

/-- RFC 2104 style check of the HMAC against an independent implementation. -/
example : hmacSha256 QR_SECRET (strBytes "undefined:undefined:undefined:undefined") =
  [24, 198, 122, 217, 97, 214, 136, 229, 58, 41, 70, 137, 254, 234, 55, 197,
   66, 6, 12, 187, 27, 242, 71, 206, 139, 136, 194, 107, 211, 28, 172, 176] := by decide

/-! ## Hex encoding (Node `digest('hex')` and `Buffer.from(s, 'hex')`) -/

/-- Lowercase hex digit character code for a value below 16. -/
def hexChar (n : Nat) : Nat := if n < 10 then 48 + n else 87 + n

/-- `digest('hex')`: lowercase hex string of a byte list. -/
def toHexLower : List Nat → Str
  | [] => []
  | b :: rest => hexChar (b / 16) :: hexChar (b % 16) :: toHexLower rest

/-- Value of a hex character; Node hex decoding accepts both letter cases. -/
def hexVal (c : Nat) : Option Nat :=
  if 48 ≤ c ∧ c ≤ 57 then some (c - 48)
  else if 97 ≤ c ∧ c ≤ 102 then some (c - 87)
  else if 65 ≤ c ∧ c ≤ 70 then some (c - 55)
  else none

/-- `Buffer.from(s, 'hex')`: decodes complete hex byte pairs and stops at the
first character that is not a hex digit, dropping any incomplete pair. -/
def bufferFromHex : Str → List Nat
  | c1 :: c2 :: rest =>
    match hexVal c1, hexVal c2 with
    | some hi, some lo => (hi * 16 + lo) :: bufferFromHex rest
    | _, _ => []
  | _ => []

/-- `crypto.timingSafeEqual` compares equal-length buffers and throws on a
length mismatch; `none` models the thrown error. -/
def timingSafeEqual (a b : List Nat) : Option Bool :=
  if a.length = b.length then some (decide (a = b)) else none

/-! ## The credential payload and the codec -/

/-- The QR payload object.  Fields are optional because a payload parsed from
scanned JSON may lack any of them; a missing field is JS `undefined`. -/
structure QRPayload where
  registration_id : Option Str
  student_id : Option Str
  event_id : Option Str
  issued_at : Option Str
  expires_at : Option Str
  signature : Option Str
  event_title : Option Str
  student_name : Option Str
deriving DecidableEq

/-- Template-literal interpolation: an undefined field prints as "undefined". -/
def jsStr : Option Str → Str
  | none => strBytes "undefined"
  | some s => s

/-- The canonical string `registrationid:studentid:eventid:issuedat` that
`generateQRSignature` feeds to the HMAC. -/
def canonicalData (p : QRPayload) : Str :=
  jsStr p.registration_id ++ strBytes ":" ++ jsStr p.student_id ++ strBytes ":" ++
  jsStr p.event_id ++ strBytes ":" ++ jsStr p.issued_at

/-- `generateQRSignature`: hex HMAC-SHA256 digest of the canonical string. -/
def generateQRSignature (p : QRPayload) : Str :=
  toHexLower (hmacSha256 QR_SECRET (canonicalData p))

/-- Result of `timingSafeEqual` under the catch-all of `validateQRSignature`:
a thrown length-mismatch error is caught and becomes `false`. -/
def timingSafeEqualBool (a b : List Nat) : Bool :=
  match timingSafeEqual a b with
  | some r => r
  | none => false

/-- `validateQRSignature`: recompute the signature, hex-decode both strings and
compare in constant time; any thrown error (missing signature field, buffer
length mismatch) is caught and yields `false`. -/
def validateQRSignature (p : QRPayload) : Bool :=
  match p.signature with
  | none => false
  | some sig => timingSafeEqualBool (bufferFromHex sig) (bufferFromHex (generateQRSignature p))

/-- The codec encode step: compute the signature over the payload fields and
store it in the payload, as the multi-event registration path does. -/
def encodePayload (p : QRPayload) : QRPayload :=
  { p with signature := some (generateQRSignature p) }

/-! ## Facts about the hex round trip and the digest shape -/

theorem toHexLower_length (l : List Nat) : (toHexLower l).length = 2 * l.length := by
  induction l with
  | nil => rfl
  | cons b rest ih => simp [toHexLower, ih]; ring

theorem hexVal_hexChar {n : Nat} (h : n < 16) : hexVal (hexChar n) = some n := by
  revert h
  revert n
  decide

theorem bufferFromHex_toHexLower (l : List Nat) (h : ∀ b ∈ l, b < 256) :
    bufferFromHex (toHexLower l) = l := by
  induction l with
  | nil => rfl
  | cons b rest ih =>
    have hb : b < 256 := h b (List.mem_cons_self b rest)
    have hhi : b / 16 < 16 := by omega
    have hlo : b % 16 < 16 := Nat.mod_lt _ (by norm_num)
    have hrest : ∀ x ∈ rest, x < 256 := fun x hx => h x (List.mem_cons_of_mem b hx)
    simp [toHexLower, bufferFromHex, hexVal_hexChar hhi, hexVal_hexChar hlo, ih hrest]
    omega

theorem wordBytes_lt (x : Nat) : ∀ b ∈ wordBytes x, b < 256 := by
  intro b hb
  simp [wordBytes] at hb
  rcases hb with h | h | h | h <;> (subst h; exact Nat.mod_lt _ (by norm_num))

theorem hashBytes_lt (st : Hash8) : ∀ b ∈ hashBytes st, b < 256 := by
  intro b hb
  simp only [hashBytes, List.mem_append] at hb
  rcases hb with ((((((h | h) | h) | h) | h) | h) | h) | h <;> exact wordBytes_lt _ _ h

theorem hashBytes_length (st : Hash8) : (hashBytes st).length = 32 := by
  simp [hashBytes, wordBytes]

theorem sha256_lt (msg : List Nat) : ∀ b ∈ sha256 msg, b < 256 :=
  hashBytes_lt _

theorem sha256_length (msg : List Nat) : (sha256 msg).length = 32 :=
  hashBytes_length _

theorem hmacSha256_lt (key msg : List Nat) : ∀ b ∈ hmacSha256 key msg, b < 256 :=
  sha256_lt _

theorem hmacSha256_length (key msg : List Nat) : (hmacSha256 key msg).length = 32 :=
  sha256_length _

/-- The canonical string ignores the signature field, so signing and then
re-deriving the signature from the signed payload agree. -/
theorem canonicalData_encode (p : QRPayload) : canonicalData (encodePayload p) = canonicalData p := rfl

theorem generateQRSignature_encode (p : QRPayload) :
    generateQRSignature (encodePayload p) = generateQRSignature p := rfl

/-! ## List helper lemmas -/

theorem getD_set_self (l : List Nat) (i v : Nat) (h : i < l.length) :
    (l.set i v).getD i 0 = v := by
  induction l generalizing i with
  | nil => simp at h
  | cons x xs ih =>
    cases i with
    | zero => rfl
    | succ n => exact ih n (by simpa using h)

theorem mem_set_lt (l : List Nat) (i v : Nat) (hl : ∀ b ∈ l, b < 256) (hv : v < 256) :
    ∀ b ∈ l.set i v, b < 256 := by
  induction l generalizing i with
  | nil => simp
  | cons x xs ih =>
    cases i with
    | zero =>
      intro b hb
      rcases List.mem_cons.mp hb with h | h
      · omega
      · exact hl b (List.mem_cons_of_mem x h)
    | succ n =>
      intro b hb
      rcases List.mem_cons.mp hb with h | h
      · exact h ▸ hl x (List.mem_cons_self x xs)
      · exact ih n (fun y hy => hl y (List.mem_cons_of_mem x hy)) b h

theorem getD_mem_of_lt (l : List Nat) (i : Nat) (h : i < l.length) : l.getD i 0 ∈ l := by
  induction l generalizing i with
  | nil => simp at h
  | cons x xs ih =>
    cases i with
    | zero => exact List.mem_cons_self x xs
    | succ n => exact List.mem_cons_of_mem x (ih n (by simpa using h))

/-- Flipping one bit of a byte keeps it a byte and changes its value. -/
theorem byte_bitflip_facts : ∀ b < 256, ∀ k < 8, b ^^^ 2 ^ k < 256 ∧ b ^^^ 2 ^ k ≠ b := by
  decide

/-! ## C1: codec round trip and signature tampering -/

theorem timingSafeEqualBool_self (a : List Nat) : timingSafeEqualBool a a = true := by
  simp [timingSafeEqualBool, timingSafeEqual]

theorem timingSafeEqualBool_ne (a b : List Nat) (hlen : a.length = b.length) (hne : a ≠ b) :
    timingSafeEqualBool a b = false := by
  simp [timingSafeEqualBool, timingSafeEqual, hlen, hne]

/-- Overwriting the signature field does not change the canonical data, hence
not the derived signature either. -/
theorem generateQRSignature_set_sig (p : QRPayload) (s : Option Str) :
    generateQRSignature { p with signature := s } = generateQRSignature p := rfl

/-- Verification succeeds whenever the stored signature field equals the
signature recomputed from the payload itself. -/
theorem validateQRSignature_of_sig_eq (p : QRPayload)
    (h : p.signature = some (generateQRSignature p)) :
    validateQRSignature p = true := by
  have hd := hmacSha256_lt QR_SECRET (canonicalData p)
  simp only [validateQRSignature, h]
  rw [show generateQRSignature p = toHexLower (hmacSha256 QR_SECRET (canonicalData p)) from rfl]
  rw [bufferFromHex_toHexLower _ hd]
  exact timingSafeEqualBool_self _

/-- Verification fails whenever the stored signature field decodes to a buffer
of the right length that differs from the recomputed digest. -/
theorem validateQRSignature_false_of_ne (p : QRPayload) (s : Str)
    (h : p.signature = some s)
    (hlen : (bufferFromHex s).length = (bufferFromHex (generateQRSignature p)).length)
    (hne : bufferFromHex s ≠ bufferFromHex (generateQRSignature p)) :
    validateQRSignature p = false := by
  simp only [validateQRSignature, h]
  exact timingSafeEqualBool_ne _ _ hlen hne

/-- A signed payload always passes verification: the canonical string ignores
the signature field, and the hex round trip is exact on digest bytes. -/
theorem validateQRSignature_encodePayload (p : QRPayload) :
    validateQRSignature (encodePayload p) = true := by
  apply validateQRSignature_of_sig_eq
  rw [generateQRSignature_encode]
  rfl

/-- C1 (amended): for every payload, the signed payload verifies; and flipping
any single bit of the 32-byte signature value (re-encoded as hex) makes
verification fail.  Bit flips on the hex-string signature field that only
toggle the ASCII case of a hex letter are excluded: Node hex decoding is
case-insensitive, see `c1_hex_case_flip_counterexample`. -/
theorem c1_signature_roundtrip_and_bitflip (p : QRPayload) (i k : Nat) (hi : i < 32) (hk : k < 8) :
    validateQRSignature (encodePayload p) = true ∧
    validateQRSignature { p with signature := some (toHexLower
      (List.set (hmacSha256 QR_SECRET (canonicalData p)) i
        ((hmacSha256 QR_SECRET (canonicalData p)).getD i 0 ^^^ 2 ^ k))) } = false := by
  refine ⟨validateQRSignature_encodePayload p, ?_⟩
  set d := hmacSha256 QR_SECRET (canonicalData p) with hd_def
  have hlen : d.length = 32 := hmacSha256_length _ _
  have hd : ∀ b ∈ d, b < 256 := hmacSha256_lt _ _
  have hi_len : i < d.length := by omega
  have hb_lt : d.getD i 0 < 256 := hd _ (getD_mem_of_lt d i hi_len)
  obtain ⟨hv_lt, hv_ne⟩ := byte_bitflip_facts (d.getD i 0) hb_lt k hk
  have hd2 : ∀ b ∈ d.set i (d.getD i 0 ^^^ 2 ^ k), b < 256 := mem_set_lt d i _ hd hv_lt
  have hne : d.set i (d.getD i 0 ^^^ 2 ^ k) ≠ d := by
    intro hcontra
    exact hv_ne (by rw [← getD_set_self d i (d.getD i 0 ^^^ 2 ^ k) hi_len, hcontra])
  apply validateQRSignature_false_of_ne _ (toHexLower (d.set i (d.getD i 0 ^^^ 2 ^ k))) rfl
  · rw [generateQRSignature_set_sig p, show generateQRSignature p = toHexLower d from rfl]
    rw [bufferFromHex_toHexLower _ hd2, bufferFromHex_toHexLower _ hd]
    rw [List.length_set, hlen]
  · rw [generateQRSignature_set_sig p, show generateQRSignature p = toHexLower d from rfl]
    rw [bufferFromHex_toHexLower _ hd2, bufferFromHex_toHexLower _ hd]
    exact hne

/-- A concrete well-formed payload used by several witnesses. -/
def p1 : QRPayload :=
  { registration_id := some (strBytes "R1"), student_id := some (strBytes "S1"),
    event_id := some (strBytes "E1"), issued_at := some (strBytes "100"),
    expires_at := none, signature := none, event_title := none, student_name := none }

/-- Witness for C1: the amended theorem applied to the concrete payload `p1`,
flipping bit 0 of byte 0 of the 32-byte signature value. -/
theorem c1_signature_witness :
    validateQRSignature (encodePayload p1) = true ∧
    validateQRSignature { p1 with signature := some (toHexLower
      (List.set (hmacSha256 QR_SECRET (canonicalData p1)) 0
        ((hmacSha256 QR_SECRET (canonicalData p1)).getD 0 0 ^^^ 2 ^ 0))) } = false :=
  c1_signature_roundtrip_and_bitflip p1 0 0 (by decide) (by decide)

/-- C1 (counterexample to the claim as stated): the signature of `p1` has the
hex letter `a` at string index 2; flipping the single bit `0x20` of that
character turns it into the capital `A`, a one-bit change of the signature
field after which verification still succeeds, because `Buffer.from(s, 'hex')`
decodes both letter cases alike. -/
theorem c1_hex_case_flip_counterexample :
    validateQRSignature { p1 with signature := some (generateQRSignature p1) } = true ∧
    (generateQRSignature p1).getD 2 0 = 97 ∧
    List.set (generateQRSignature p1) 2 ((generateQRSignature p1).getD 2 0 ^^^ 32) ≠ generateQRSignature p1 ∧
    validateQRSignature { p1 with signature := some (List.set (generateQRSignature p1) 2
      ((generateQRSignature p1).getD 2 0 ^^^ 32)) } = true := by
  refine ⟨by decide, by decide, by decide, by decide⟩

/-! ## Dates

JS `Date` values are natural numbers (epoch milliseconds).  The ISO strings the
server stores (`toISOString`) are modelled as the decimal digit string of the
epoch value; `parseDate` is the JS `new Date(string)` parse, with `none`
standing for an invalid date (`NaN`), and any comparison against `NaN` is
false, exactly as in JS. -/

abbrev Time := Nat

/-- Decimal digit string of a natural number (the model of `toISOString`). -/
def isoOf (t : Time) : Str := strBytes (Nat.repr t)

def parseDecCore : Str → Nat → Option Nat
  | [], acc => some acc
  | c :: rest, acc =>
    if 48 ≤ c ∧ c ≤ 57 then parseDecCore rest (acc * 10 + (c - 48)) else none

/-- The model of `new Date(s)` on a string: `none` is an invalid date. -/
def parseDate (s : Str) : Option Time :=
  match s with
  | [] => none
  | _ => parseDecCore s 0

/-- `new Date() > new Date(s)`: false when `s` does not parse (NaN). -/
def afterTime (now : Time) (s : Str) : Bool :=
  match parseDate s with
  | some t => decide (now > t)
  | none => false

/-! ## The data model (Mongo collections as lists) -/

inductive RegStatus
  | registered
  | attended
  | absent
  | cancelled
deriving DecidableEq

inductive ScanStatus
  | valid
  | invalid
  | expired
  | duplicate
deriving DecidableEq

structure UserR where
  id : Str
  name : Str
deriving DecidableEq

structure EventR where
  id : Str
  title : Str
  date : Time
  maxParticipants : Nat
  currentParticipants : Nat
  registrationDeadline : Time
deriving DecidableEq

/-- An entry of the embedded `scanLogs` array of a registration. -/
structure ScanEntry where
  scannedAt : Time
  scannedBy : Str
  location : Str
  status : ScanStatus
  notes : Str
deriving DecidableEq

structure RegistrationR where
  registrationId : Str
  userId : Str
  eventId : Str
  registeredAt : Time
  status : RegStatus
  qrPayload : QRPayload
  scanLogs : List ScanEntry
deriving DecidableEq

/-- A document of the standalone `ScanLog` collection (the scan ledger). -/
structure ScanLogR where
  registrationId : Str
  scannedAt : Time
  scannedBy : Str
  location : Str
  status : ScanStatus
  notes : Str
  eventId : Str
  userId : Str
deriving DecidableEq

structure Db where
  users : List UserR
  events : List EventR
  registrations : List RegistrationR
  scanLogs : List ScanLogR
deriving DecidableEq

def findUser (db : Db) (uid : Str) : Option UserR :=
  db.users.find? (fun u => decide (u.id = uid))

def findEvent (db : Db) (eid : Str) : Option EventR :=
  db.events.find? (fun e => decide (e.id = eid))

/-- The `findOne({ userId, eventId })` duplicate-registration query: it matches
a registration of any status, including cancelled ones. -/
def regMatch (uid eid : Str) (r : RegistrationR) : Bool :=
  decide (r.userId = uid) && decide (r.eventId = eid)

/-- `document.save()` of a fetched document: overwrite the first stored
document matching the predicate with the updated copy. -/
def updateFirst {α : Type} (p : α → Bool) (f : α → α) : List α → List α
  | [] => []
  | x :: xs => if p x then f x :: xs else x :: updateFirst p f xs

/-- `findOneAndDelete`: remove the first matching document. -/
def deleteFirst {α : Type} (p : α → Bool) : List α → List α
  | [] => []
  | x :: xs => if p x then xs else x :: deleteFirst p xs

/-- `event.currentParticipants += 1` on the fetched document. -/
def incrementParticipants (event : EventR) : EventR :=
  { event with currentParticipants := event.currentParticipants + 1 }

/-- `await event.save()`: overwrite the stored event that has this id with the
in-memory document. -/
def saveEventDoc (db : Db) (eventId : Str) (doc : EventR) : Db :=
  { db with events := updateFirst (fun e => decide (e.id = eventId)) (fun _ => doc) db.events }

/-! ## The registration handlers (Credential Issuer)

`POST /api/events/:eventId/register` and `POST /api/events/register-multiple`.
Fresh registration identifiers (`crypto.randomBytes`) are supplied by the
caller as explicit arguments.  The QR image rendering is cosmetic and omitted.
Handlers run atomically here; the split model for interleavings follows. -/

inductive RegOutcome
  | userNotFound
  | eventNotFound
  | alreadyRegistered
  | eventFull
  | deadlinePassed
  | success
deriving DecidableEq

/-- The payload object the single-event path passes to `generateQRSignature`:
it has keys `registrationId`, `userId`, `eventIds`, `timestamp`, so looking up
`registration_id`, `student_id`, `event_id`, `issued_at` on it yields
`undefined` for every field. -/
def undefinedFieldsPayload : QRPayload :=
  { registration_id := none, student_id := none, event_id := none, issued_at := none,
    expires_at := none, signature := none, event_title := none, student_name := none }

/-- `POST /api/events/:eventId/register`.  Checks in source order: user found,
event found, no existing registration for the (user, event) pair, capacity,
deadline; then signs the camelCase wrapper object (whose snake_case fields are
all undefined), stores a payload whose fields are the real values but whose
signature is the one computed from the undefined fields, and increments the
participant counter by saving the fetched event document. -/
def registerSingle (db : Db) (now : Time) (userId eventId freshId : Str) : RegOutcome × Db :=
  match findUser db userId with
  | none => (RegOutcome.userNotFound, db)
  | some user =>
    match findEvent db eventId with
    | none => (RegOutcome.eventNotFound, db)
    | some event =>
      match db.registrations.find? (regMatch userId eventId) with
      | some _ => (RegOutcome.alreadyRegistered, db)
      | none =>
        if event.currentParticipants ≥ event.maxParticipants then (RegOutcome.eventFull, db)
        else if now > event.registrationDeadline then (RegOutcome.deadlinePassed, db)
        else
          let signature := generateQRSignature undefinedFieldsPayload
          let storedPayload : QRPayload :=
            { registration_id := some freshId, student_id := some userId,
              event_id := some eventId, issued_at := some (isoOf now),
              expires_at := some (isoOf event.date), signature := some signature,
              event_title := some event.title, student_name := some user.name }
          let reg : RegistrationR :=
            { registrationId := freshId, userId := userId, eventId := eventId,
              registeredAt := now, status := RegStatus.registered,
              qrPayload := storedPayload, scanLogs := [] }
          let db1 : Db := { db with registrations := db.registrations ++ [reg] }
          let db2 : Db := saveEventDoc db1 eventId (incrementParticipants event)
          (RegOutcome.success, db2)

inductive MultiReason
  | alreadyRegistered
  | eventNotFound
  | eventFull
  | deadlinePassed
deriving DecidableEq

structure MultiResults where
  totalEvents : Nat
  successfulRegistrations : Nat
  failedRegistrations : List (Str × MultiReason)
  registrationIds : List Str
deriving DecidableEq

/-- One iteration of the loop of `POST /api/events/register-multiple`.  Checks
in source order: existing registration, event found, capacity, deadline; then
builds the payload with `issued_at = now` and `expires_at = event end`, signs
it over its own fields, stores it and increments the counter. -/
def registerMultipleStep (now : Time) (userId : Str) (user : UserR)
    (st : MultiResults × Db) (item : Str × Str) : MultiResults × Db :=
  let results := st.1
  let db := st.2
  let eventId := item.1
  let freshId := item.2
  match db.registrations.find? (regMatch userId eventId) with
  | some _ =>
    ({ results with failedRegistrations :=
        results.failedRegistrations ++ [(eventId, MultiReason.alreadyRegistered)] }, db)
  | none =>
    match findEvent db eventId with
    | none =>
      ({ results with failedRegistrations :=
          results.failedRegistrations ++ [(eventId, MultiReason.eventNotFound)] }, db)
    | some event =>
      if event.currentParticipants ≥ event.maxParticipants then
        ({ results with failedRegistrations :=
            results.failedRegistrations ++ [(eventId, MultiReason.eventFull)] }, db)
      else if now > event.registrationDeadline then
        ({ results with failedRegistrations :=
            results.failedRegistrations ++ [(eventId, MultiReason.deadlinePassed)] }, db)
      else
        let basePayload : QRPayload :=
          { registration_id := some freshId, student_id := some userId,
            event_id := some eventId, issued_at := some (isoOf now),
            expires_at := some (isoOf event.date), signature := some [],
            event_title := some event.title, student_name := some user.name }
        let storedPayload : QRPayload :=
          { basePayload with signature := some (generateQRSignature basePayload) }
        let reg : RegistrationR :=
          { registrationId := freshId, userId := userId, eventId := eventId,
            registeredAt := now, status := RegStatus.registered,
            qrPayload := storedPayload, scanLogs := [] }
        let db1 : Db := { db with registrations := db.registrations ++ [reg] }
        let db2 : Db := saveEventDoc db1 eventId (incrementParticipants event)
        ({ results with
            successfulRegistrations := results.successfulRegistrations + 1,
            registrationIds := results.registrationIds ++ [freshId] }, db2)

/-- `POST /api/events/register-multiple`: per-event loop collecting outcomes;
`none` is the 404 for an unknown user.  `items` pairs each requested event id
with the fresh registration id generated for it. -/
def registerMultiple (db : Db) (now : Time) (userId : Str) (items : List (Str × Str)) :
    Option MultiResults × Db :=
  match findUser db userId with
  | none => (none, db)
  | some user =>
    let st := items.foldl (registerMultipleStep now userId user)
      ({ totalEvents := items.length, successfulRegistrations := 0,
         failedRegistrations := [], registrationIds := [] }, db)
    (some st.1, st.2)

/-! ## The validation handler (Credential Validator), `POST /api/qr/validate` -/

inductive VOutcome
  | invalidFormat
  | missingFields
  | badSignature
  | wrongEvent
  | notFound
  | cancelledReg
  | expired
  | duplicate
  | valid
deriving DecidableEq

/-- The response reason string of each outcome, as in the source. -/
def reasonOf : VOutcome → Str
  | VOutcome.invalidFormat => strBytes "Invalid QR code format"
  | VOutcome.missingFields => strBytes "Missing required QR code fields"
  | VOutcome.badSignature => strBytes "Invalid QR code signature"
  | VOutcome.wrongEvent => strBytes "QR code is for a different event"
  | VOutcome.notFound => strBytes "Registration not found"
  | VOutcome.cancelledReg => strBytes "Registration has been cancelled"
  | VOutcome.expired => strBytes "QR code has expired"
  | VOutcome.duplicate => strBytes "Already marked as attended"
  | VOutcome.valid => strBytes ""

/-- The request body of `POST /api/qr/validate`.  `qrData` is the parse result
of the scanned JSON text: `none` when `JSON.parse` throws. -/
structure VRequest where
  qrData : Option QRPayload
  eventId : Option Str
  scannedBy : Option Str
  location : Option Str
deriving DecidableEq

/-- JS falsiness of a possibly-undefined string field: undefined and the empty
string are falsy.  Used by the required-fields filter and the `eventId` and
`expires_at` guards. -/
def falsyField : Option Str → Bool
  | none => true
  | some s => decide (s = [])

/-- `someValue || defaultValue` for possibly-undefined strings. -/
def jsDefault (o : Option Str) (d : Str) : Str :=
  match o with
  | none => d
  | some s => if s = [] then d else s

/-- The required-fields check: `registration_id`, `student_id`, `event_id`,
`signature` must all be truthy (`issued_at` and `expires_at` are not checked). -/
def missingRequiredFields (p : QRPayload) : Bool :=
  falsyField p.registration_id || falsyField p.student_id ||
  falsyField p.event_id || falsyField p.signature

/-- The registration lookup: exact triple match on registration id, student id
and event id. -/
def triplePred (p : QRPayload) (r : RegistrationR) : Bool :=
  decide (some r.registrationId = p.registration_id) &&
  decide (some r.userId = p.student_id) &&
  decide (some r.eventId = p.event_id)

def findTriple (db : Db) (p : QRPayload) : Option RegistrationR :=
  db.registrations.find? (triplePred p)

/-- The expiry guard: `qrPayload.expires_at && new Date() > new Date(expires_at)`. -/
def expiryGuard (now : Time) (p : QRPayload) : Bool :=
  !falsyField p.expires_at && afterTime now (jsStr p.expires_at)

/-- The registration document update of a valid scan: set status to attended
and push the embedded scan entry. -/
def commitScan (entry : ScanEntry) (r : RegistrationR) : RegistrationR :=
  { r with status := RegStatus.attended, scanLogs := r.scanLogs ++ [entry] }

/-- The embedded scan entry built by a valid scan. -/
def scanEntryOf (now : Time) (rq : VRequest) : ScanEntry :=
  { scannedAt := now, scannedBy := jsDefault rq.scannedBy (strBytes "system"),
    location := jsDefault rq.location (strBytes "unknown"),
    status := ScanStatus.valid, notes := strBytes "Valid scan - marked as attended" }

/-- The standalone scan-ledger document built by a valid scan. -/
def standaloneLogOf (now : Time) (rq : VRequest) (reg : RegistrationR) : ScanLogR :=
  { registrationId := reg.registrationId, scannedAt := now,
    scannedBy := (scanEntryOf now rq).scannedBy, location := (scanEntryOf now rq).location,
    status := ScanStatus.valid, notes := (scanEntryOf now rq).notes,
    eventId := reg.eventId, userId := reg.userId }

/-- The database after the commit of a valid scan: the found registration is
overwritten with its attended copy and one ledger document is appended. -/
def commitDbOf (db : Db) (now : Time) (rq : VRequest) (p : QRPayload) (reg : RegistrationR) : Db :=
  { db with
    registrations := updateFirst (triplePred p) (commitScan (scanEntryOf now rq)) db.registrations,
    scanLogs := db.scanLogs ++ [standaloneLogOf now rq reg] }

/-- `POST /api/qr/validate`: decode, required fields, signature, event match,
lookup, cancelled, expiry, duplicate; then commit (status to attended, push the
embedded entry, save one standalone scan-ledger document).  Every rejection
branch returns before any write. -/
def validate (db : Db) (now : Time) (rq : VRequest) : VOutcome × Db :=
  match rq.qrData with
  | none => (VOutcome.invalidFormat, db)
  | some p =>
    if missingRequiredFields p then (VOutcome.missingFields, db)
    else if !validateQRSignature p then (VOutcome.badSignature, db)
    else if !falsyField rq.eventId && decide (p.event_id ≠ rq.eventId) then (VOutcome.wrongEvent, db)
    else
      match findTriple db p with
      | none => (VOutcome.notFound, db)
      | some reg =>
        if reg.status = RegStatus.cancelled then (VOutcome.cancelledReg, db)
        else if expiryGuard now p then (VOutcome.expired, db)
        else if reg.status = RegStatus.attended then (VOutcome.duplicate, db)
        else (VOutcome.valid, commitDbOf db now rq p reg)

/-! ## Unregistration and administrative deletion -/

inductive UnregOutcome
  | notFound
  | success
deriving DecidableEq

/-- `POST /api/events/:eventId/unregister`: `findOneAndDelete({userId, eventId})`
regardless of the registration status, then decrement the counter if positive. -/
def unregister (db : Db) (userId eventId : Str) : UnregOutcome × Db :=
  match db.registrations.find? (regMatch userId eventId) with
  | none => (UnregOutcome.notFound, db)
  | some _ =>
    let db1 : Db := { db with registrations := deleteFirst (regMatch userId eventId) db.registrations }
    match findEvent db1 eventId with
    | some event =>
      if 0 < event.currentParticipants then
        (UnregOutcome.success, saveEventDoc db1 eventId { event with currentParticipants := event.currentParticipants - 1 })
      else (UnregOutcome.success, db1)
    | none => (UnregOutcome.success, db1)

/-- `DELETE /api/admin/user/:id`: delete the user and all their registrations. -/
def adminDeleteUser (db : Db) (uid : Str) : Bool × Db :=
  match findUser db uid with
  | none => (false, db)
  | some _ =>
    (true, { db with
        users := deleteFirst (fun u => decide (u.id = uid)) db.users,
        registrations := db.registrations.filter (fun r => decide (r.userId ≠ uid)) })

/-! ## The registration handler split at its await boundary

The single-event handler awaits between `Event.findById` (the document read and
the checks against it) and `event.save()` (the write of the incremented
counter).  Two concurrent requests may therefore both run the capacity check
against the same snapshot before either write lands.  `regReadPhase` is the
handler up to and including the checks; `regCommitPhase` is the rest of the
handler, which uses the snapshot captured by the read phase. -/

def regReadPhase (db : Db) (now : Time) (userId eventId : Str) : Option EventR :=
  match findUser db userId with
  | none => none
  | some _ =>
    match findEvent db eventId with
    | none => none
    | some event =>
      match db.registrations.find? (regMatch userId eventId) with
      | some _ => none
      | none =>
        if event.currentParticipants ≥ event.maxParticipants then none
        else if now > event.registrationDeadline then none
        else some event

def regCommitPhase (db : Db) (now : Time) (userId eventId freshId : Str)
    (user : UserR) (event : EventR) : Db :=
  let signature := generateQRSignature undefinedFieldsPayload
  let storedPayload : QRPayload :=
    { registration_id := some freshId, student_id := some userId,
      event_id := some eventId, issued_at := some (isoOf now),
      expires_at := some (isoOf event.date), signature := some signature,
      event_title := some event.title, student_name := some user.name }
  let reg : RegistrationR :=
    { registrationId := freshId, userId := userId, eventId := eventId,
      registeredAt := now, status := RegStatus.registered,
      qrPayload := storedPayload, scanLogs := [] }
  let db1 : Db := { db with registrations := db.registrations ++ [reg] }
  saveEventDoc db1 eventId (incrementParticipants event)

/-- The split model composes to the sequential handler: when the read phase
passes for a found user, running the commit phase immediately is exactly
`registerSingle`. -/
theorem registerSingle_eq_phases (db : Db) (now : Time) (userId eventId freshId : Str)
    (user : UserR) (event : EventR)
    (hu : findUser db userId = some user)
    (hr : regReadPhase db now userId eventId = some event) :
    registerSingle db now userId eventId freshId =
      (RegOutcome.success, regCommitPhase db now userId eventId freshId user event) := by
  unfold regReadPhase at hr
  simp only [hu] at hr
  unfold registerSingle regCommitPhase
  simp only [hu]
  cases hfe : findEvent db eventId with
  | none => simp [hfe] at hr
  | some ev =>
    simp only [hfe] at hr ⊢
    cases hfr : List.find? (regMatch userId eventId) db.registrations with
    | some r => simp [hfr] at hr
    | none =>
      simp only [hfr] at hr ⊢
      by_cases hcap : ev.currentParticipants ≥ ev.maxParticipants
      · simp [hcap] at hr
      · simp only [if_neg hcap] at hr ⊢
        by_cases hdl : now > ev.registrationDeadline
        · simp [hdl] at hr
        · simp only [if_neg hdl] at hr ⊢
          obtain rfl : ev = event := Option.some_inj.mp hr
          rfl

/-! ## List lemmas for the document update and delete operations -/

theorem find?_updateFirst {α : Type} (pred : α → Bool) (f : α → α)
    (hf : ∀ x, pred (f x) = pred x) :
    ∀ l : List α, List.find? pred (updateFirst pred f l) = (List.find? pred l).map f := by
  intro l
  induction l with
  | nil => rfl
  | cons x xs ih =>
    by_cases hx : pred x
    · simp [updateFirst, hx, List.find?_cons, hf x]
    · simp only [updateFirst, hx, Bool.false_eq_true, if_false]
      rw [List.find?_cons_of_neg _ (by simp [hx]), List.find?_cons_of_neg _ (by simp [hx])]
      exact ih

theorem mem_updateFirst_of_ne {α : Type} (pred : α → Bool) (f : α → α) (a x : α)
    (l : List α) (hfind : List.find? pred l = some a) (hmem : x ∈ l) (hne : x ≠ a) :
    x ∈ updateFirst pred f l := by
  induction l with
  | nil => simp at hmem
  | cons y ys ih =>
    by_cases hy : pred y
    · have ha : a = y := by
        rw [List.find?_cons_of_pos _ hy] at hfind
        exact (Option.some_inj.mp hfind).symm
      rcases List.mem_cons.mp hmem with h | h
      · exact absurd (h.trans ha.symm) hne
      · simp only [updateFirst, hy, if_true]
        exact List.mem_cons_of_mem _ h
    · rw [List.find?_cons_of_neg _ (by simp [hy])] at hfind
      rcases List.mem_cons.mp hmem with h | h
      · subst h; simp [updateFirst, hy]
      · simp only [updateFirst, hy, Bool.false_eq_true, if_false]
        exact List.mem_cons_of_mem _ (ih hfind h)

theorem deleteFirst_length {α : Type} (pred : α → Bool) (a : α) :
    ∀ l : List α, List.find? pred l = some a → (deleteFirst pred l).length + 1 = l.length := by
  intro l
  induction l with
  | nil => intro h; simp at h
  | cons y ys ih =>
    intro hfind
    by_cases hy : pred y
    · simp [deleteFirst, hy]
    · rw [List.find?_cons_of_neg _ (by simp [hy])] at hfind
      simp only [deleteFirst, hy, Bool.false_eq_true, if_false, List.length_cons]
      rw [← ih hfind]

theorem not_mem_deleteFirst_of_unique {α : Type} (pred : α → Bool) (x : α)
    (l : List α) (hx : pred x) (huniq : (l.filter pred).length ≤ 1) (hmem : x ∈ l) :
    x ∉ deleteFirst pred l := by
  induction l with
  | nil => simp [deleteFirst]
  | cons y ys ih =>
    by_cases hy : pred y
    · simp only [deleteFirst, hy, if_true]
      intro hcontra
      have h2 := huniq
      simp only [List.filter_cons, hy, if_true, List.length_cons] at h2
      have hxy : ys.filter pred = [] := List.length_eq_zero.mp (by omega)
      have hmem3 : x ∈ ys.filter pred := List.mem_filter.mpr ⟨hcontra, hx⟩
      rw [hxy] at hmem3
      simp at hmem3
    · have hxy : x ≠ y := fun h => hy (h ▸ hx)
      simp only [deleteFirst, hy, Bool.false_eq_true, if_false]
      intro hcontra
      rcases List.mem_cons.mp hcontra with h | h
      · exact hxy h
      · have hmem2 : x ∈ ys := by
          rcases List.mem_cons.mp hmem with h2 | h2
          · exact absurd h2 hxy
          · exact h2
        have huniq2 : (ys.filter pred).length ≤ 1 := by
          simpa [List.filter_cons, hy] using huniq
        exact ih huniq2 hmem2 h

/-! ## Branch structure of the validation handler -/

/-- Unparseable QR text short-circuits. -/
theorem validate_parse_fail (db : Db) (now : Time) (ev sb loc : Option Str) :
    validate db now ⟨none, ev, sb, loc⟩ = (VOutcome.invalidFormat, db) := rfl

/-- The handler on a parsed payload, with the outer match reduced. -/
theorem validate_some (db : Db) (now : Time) (ev sb loc : Option Str) (p : QRPayload) :
    validate db now ⟨some p, ev, sb, loc⟩ =
      (if missingRequiredFields p then (VOutcome.missingFields, db)
      else if !validateQRSignature p then (VOutcome.badSignature, db)
      else if !falsyField ev && decide (p.event_id ≠ ev) then (VOutcome.wrongEvent, db)
      else
        match findTriple db p with
        | none => (VOutcome.notFound, db)
        | some reg =>
          if reg.status = RegStatus.cancelled then (VOutcome.cancelledReg, db)
          else if expiryGuard now p then (VOutcome.expired, db)
          else if reg.status = RegStatus.attended then (VOutcome.duplicate, db)
          else (VOutcome.valid, commitDbOf db now ⟨some p, ev, sb, loc⟩ p reg)) := rfl

/-- Every rejection branch of the handler returns before any write: the
database value is unchanged. -/
theorem validate_rejection_pure (db : Db) (now : Time) (rq : VRequest)
    (h : (validate db now rq).1 ≠ VOutcome.valid) : (validate db now rq).2 = db := by
  rcases rq with ⟨qd, ev, sb, loc⟩
  cases qd with
  | none => rfl
  | some p =>
    rw [validate_some] at h ⊢
    by_cases h1 : missingRequiredFields p = true
    · rw [if_pos h1]
    · rw [if_neg h1]
      by_cases h2 : (!validateQRSignature p) = true
      · rw [if_pos h2]
      · rw [if_neg h2]
        by_cases h3 : (!falsyField ev && decide (p.event_id ≠ ev)) = true
        · rw [if_pos h3]
        · rw [if_neg h3]
          rw [if_neg h1, if_neg h2, if_neg h3] at h
          cases hft : findTriple db p with
          | none => simp only [hft]
          | some reg =>
            simp only [hft] at h ⊢
            by_cases h5 : reg.status = RegStatus.cancelled
            · rw [if_pos h5]
            · rw [if_neg h5]
              rw [if_neg h5] at h
              by_cases h6 : expiryGuard now p = true
              · rw [if_pos h6]
              · rw [if_neg h6]
                rw [if_neg h6] at h
                by_cases h7 : reg.status = RegStatus.attended
                · rw [if_pos h7]
                · rw [if_neg h7]
                  rw [if_neg h7] at h
                  exact absurd rfl h

/-- Inversion of a valid outcome: every guard passed, the registration was
found with a redeemable status, and the result state is the commit. -/
theorem validate_valid_inversion (db : Db) (now : Time) (rq : VRequest)
    (h : (validate db now rq).1 = VOutcome.valid) :
    ∃ p reg, rq.qrData = some p ∧
      missingRequiredFields p = false ∧
      validateQRSignature p = true ∧
      (!falsyField rq.eventId && decide (p.event_id ≠ rq.eventId)) = false ∧
      findTriple db p = some reg ∧
      reg.status ≠ RegStatus.cancelled ∧
      expiryGuard now p = false ∧
      reg.status ≠ RegStatus.attended ∧
      (validate db now rq).2 = commitDbOf db now rq p reg := by
  rcases rq with ⟨qd, ev, sb, loc⟩
  cases qd with
  | none => rw [validate_parse_fail] at h; simp at h
  | some p =>
    rw [validate_some] at h
    by_cases h1 : missingRequiredFields p = true
    · rw [if_pos h1] at h; simp at h
    · rw [if_neg h1] at h
      by_cases h2 : (!validateQRSignature p) = true
      · rw [if_pos h2] at h; simp at h
      · rw [if_neg h2] at h
        by_cases h3 : (!falsyField ev && decide (p.event_id ≠ ev)) = true
        · rw [if_pos h3] at h; simp at h
        · rw [if_neg h3] at h
          cases hft : findTriple db p with
          | none => simp only [hft] at h; simp at h
          | some reg =>
            simp only [hft] at h
            by_cases h5 : reg.status = RegStatus.cancelled
            · rw [if_pos h5] at h; simp at h
            · rw [if_neg h5] at h
              by_cases h6 : expiryGuard now p = true
              · rw [if_pos h6] at h; simp at h
              · rw [if_neg h6] at h
                by_cases h7 : reg.status = RegStatus.attended
                · rw [if_pos h7] at h; simp at h
                · refine ⟨p, reg, rfl, by simpa using h1, by simpa using h2,
                    by simpa using h3, hft, h5, by simpa using h6, h7, ?_⟩
                  rw [validate_some, if_neg h1, if_neg h2, if_neg h3]
                  simp only [hft]
                  rw [if_neg h5, if_neg h6, if_neg h7]

/-- Evaluation of the handler on an already-attended registration whose other
guards pass: the outcome is `duplicate` and nothing is written. -/
theorem validate_duplicate_eval (db : Db) (now : Time) (rq : VRequest)
    (p : QRPayload) (reg : RegistrationR)
    (hq : rq.qrData = some p)
    (h1 : missingRequiredFields p = false)
    (h2 : validateQRSignature p = true)
    (h3 : (!falsyField rq.eventId && decide (p.event_id ≠ rq.eventId)) = false)
    (h4 : findTriple db p = some reg)
    (h5 : reg.status = RegStatus.attended)
    (h6 : expiryGuard now p = false) :
    validate db now rq = (VOutcome.duplicate, db) := by
  rcases rq with ⟨qd, ev, sb, loc⟩
  cases qd with
  | none => simp at hq
  | some p2 =>
    obtain rfl : p2 = p := by simpa using hq
    simp only at h3
    rw [validate_some, if_neg (by rw [h1]; decide), if_neg (by rw [h2]; decide),
      if_neg (by rw [h3]; decide)]
    simp only [h4]
    rw [if_neg (by rw [h5]; decide), if_neg (by rw [h6]; decide), if_pos h5]

/-! ## Concrete fixtures -/

def user1 : UserR := { id := strBytes "U1", name := strBytes "Alice" }

def user2 : UserR := { id := strBytes "U2", name := strBytes "Bob" }

def event1 : EventR :=
  { id := strBytes "E1", title := strBytes "TechFest", date := 5000,
    maxParticipants := 10, currentParticipants := 0, registrationDeadline := 2000 }

def dbEmpty : Db := { users := [], events := [], registrations := [], scanLogs := [] }

/-! ## C10: rejections leave all stored state unchanged -/

/-- C10: whenever validate returns a rejection (any outcome other than valid),
it leaves all stored state unchanged: no registration status or embedded scan
history is modified and no standalone scan-log record is written. -/
theorem c10_rejection_leaves_state_unchanged (db : Db) (now : Time) (rq : VRequest)
    (h : (validate db now rq).1 ≠ VOutcome.valid) :
    (validate db now rq).2 = db :=
  validate_rejection_pure db now rq h

/-- Witness for C10 at a concrete malformed request. -/
theorem c10_witness :
    (validate dbEmpty 1000 ⟨none, none, none, none⟩).1 ≠ VOutcome.valid ∧
    (validate dbEmpty 1000 ⟨none, none, none, none⟩).2 = dbEmpty :=
  ⟨by decide, c10_rejection_leaves_state_unchanged dbEmpty 1000 ⟨none, none, none, none⟩ (by decide)⟩

/-! ## C5: audit entries are written only on the valid branch -/

/-- C5 (amended): a validate invocation appends one standalone scan-ledger
entry exactly when its outcome is valid; every rejection branch returns
without writing any audit entry. -/
theorem c5_ledger_written_only_on_valid (db : Db) (now : Time) (rq : VRequest) :
    ((validate db now rq).2).scanLogs.length =
      db.scanLogs.length + (if (validate db now rq).1 = VOutcome.valid then 1 else 0) := by
  by_cases hv : (validate db now rq).1 = VOutcome.valid
  · obtain ⟨p, reg, _, _, _, _, _, _, _, _, hdb⟩ := validate_valid_inversion db now rq hv
    rw [hdb, if_pos hv]
    simp [commitDbOf]
  · rw [validate_rejection_pure db now rq hv, if_neg hv]
    omega

/-- C5 (counterexample to the claim as stated): a rejected invocation appends
no scan-ledger entry at all, rather than exactly one. -/
theorem c5_counterexample :
    (validate dbEmpty 1000 ⟨none, some (strBytes "E1"), none, none⟩).1 = VOutcome.invalidFormat ∧
    ((validate dbEmpty 1000 ⟨none, some (strBytes "E1"), none, none⟩).2).scanLogs.length =
      dbEmpty.scanLogs.length := by
  exact ⟨rfl, rfl⟩

/-! ## C6: the duplicate-registration check also counts cancelled registrations -/

def regCancelled : RegistrationR :=
  { registrationId := strBytes "R0", userId := strBytes "U1", eventId := strBytes "E1",
    registeredAt := 100, status := RegStatus.cancelled,
    qrPayload := undefinedFieldsPayload, scanLogs := [] }

def dbC6 : Db := { users := [user1], events := [event1], registrations := [regCancelled], scanLogs := [] }

/-- The batch result when the only requested event is blocked by an existing
(here cancelled) registration of the pair. -/
def resC6 : MultiResults :=
  { totalEvents := 1, successfulRegistrations := 0,
    failedRegistrations := [(strBytes "E1", MultiReason.alreadyRegistered)],
    registrationIds := [] }

/-- C6 (counterexample to the claim as stated): when the only prior
registration of the pair is cancelled, a new issuance attempt is still
rejected as a duplicate on both issuance paths, because both run
`findOne({userId, eventId})` with no status filter. -/
theorem c6_counterexample :
    regCancelled.status = RegStatus.cancelled ∧
    dbC6.registrations = [regCancelled] ∧
    (registerSingle dbC6 1000 (strBytes "U1") (strBytes "E1") (strBytes "R6")).1 =
      RegOutcome.alreadyRegistered ∧
    (registerMultiple dbC6 1000 (strBytes "U1") [(strBytes "E1", strBytes "R6")]).1 =
      some resC6 := by
  refine ⟨rfl, rfl, by decide, by decide⟩

/-- C6 (amended): issuance fails with AlreadyRegistered exactly when any
registration of the (student, event) pair exists, of whatever status,
cancelled included; on the single-event path as the response outcome, and on
the multi-event path as the per-event failure reason of the batch result. -/
theorem c6_already_registered_iff_any_pair (db : Db) (now : Time) (u e f : Str)
    (hu : (findUser db u).isSome) (he : (findEvent db e).isSome) :
    ((registerSingle db now u e f).1 = RegOutcome.alreadyRegistered ↔
      (db.registrations.find? (regMatch u e)).isSome) ∧
    (∀ res, (registerMultiple db now u [(e, f)]).1 = some res →
      ((e, MultiReason.alreadyRegistered) ∈ res.failedRegistrations ↔
        (db.registrations.find? (regMatch u e)).isSome)) := by
  obtain ⟨user, husr⟩ := Option.isSome_iff_exists.mp hu
  obtain ⟨ev, hev⟩ := Option.isSome_iff_exists.mp he
  constructor
  · unfold registerSingle
    simp only [husr, hev]
    cases hfr : db.registrations.find? (regMatch u e) with
    | some r => simp
    | none =>
      simp only [Option.isSome_none, Bool.false_eq_true, iff_false]
      by_cases hcap : ev.currentParticipants ≥ ev.maxParticipants
      · rw [if_pos hcap]; simp
      · rw [if_neg hcap]
        by_cases hdl : now > ev.registrationDeadline
        · rw [if_pos hdl]; simp
        · rw [if_neg hdl]; simp
  · intro res hres
    unfold registerMultiple at hres
    simp only [husr, List.foldl] at hres
    unfold registerMultipleStep at hres
    cases hfr : db.registrations.find? (regMatch u e) with
    | some r =>
      simp only [hfr] at hres
      obtain rfl := Option.some_inj.mp hres
      simp [hfr]
    | none =>
      simp only [hfr, hev] at hres
      by_cases hcap : ev.currentParticipants ≥ ev.maxParticipants
      · rw [if_pos hcap] at hres
        obtain rfl := Option.some_inj.mp hres
        simp [hfr]
      · rw [if_neg hcap] at hres
        by_cases hdl : now > ev.registrationDeadline
        · rw [if_pos hdl] at hres
          obtain rfl := Option.some_inj.mp hres
          simp [hfr]
        · rw [if_neg hdl] at hres
          obtain rfl := Option.some_inj.mp hres
          simp [hfr]

/-- Witness for C6: the amended equivalence applied to the concrete database
whose only registration for the pair is cancelled, on both issuance paths. -/
theorem c6_witness :
    (registerSingle dbC6 1000 (strBytes "U1") (strBytes "E1") (strBytes "R6")).1 =
      RegOutcome.alreadyRegistered ∧
    (strBytes "E1", MultiReason.alreadyRegistered) ∈ resC6.failedRegistrations :=
  have h := c6_already_registered_iff_any_pair dbC6 1000 (strBytes "U1") (strBytes "E1")
    (strBytes "R6") (by decide) (by decide)
  ⟨h.1.mpr (by decide), (h.2 resC6 (by decide)).mpr (by decide)⟩

/-! ## C8: capacity is checked before the deadline on both issuance paths -/

def event8 : EventR :=
  { id := strBytes "E8", title := strBytes "HackNight", date := 5000,
    maxParticipants := 1, currentParticipants := 1, registrationDeadline := 500 }

def dbC8 : Db := { users := [user1], events := [event8], registrations := [], scanLogs := [] }

/-- C8 (counterexample to the claim as stated): for an event that is both full
and past its registration deadline, both issuance paths report the capacity
rejection, not the deadline rejection. -/
theorem c8_counterexample :
    event8.currentParticipants ≥ event8.maxParticipants ∧
    1000 > event8.registrationDeadline ∧
    (registerSingle dbC8 1000 (strBytes "U1") (strBytes "E8") (strBytes "R8")).1 =
      RegOutcome.eventFull ∧
    (registerSingle dbC8 1000 (strBytes "U1") (strBytes "E8") (strBytes "R8")).1 ≠
      RegOutcome.deadlinePassed ∧
    (registerMultiple dbC8 1000 (strBytes "U1") [(strBytes "E8", strBytes "R8")]).1 =
      some { totalEvents := 1, successfulRegistrations := 0,
             failedRegistrations := [(strBytes "E8", MultiReason.eventFull)],
             registrationIds := [] } := by
  refine ⟨by decide, by decide, by decide, by decide, by decide⟩

/-- C8 (amended): the issuance checks run in the order capacity first, then
deadline: a full event is rejected EventFull even when the deadline has also
passed; the deadline rejection is reported only for events with free capacity;
and with capacity free and the deadline not passed the registration succeeds.
The batch path uses the same order. -/
theorem c8_capacity_checked_before_deadline (db : Db) (now : Time) (u e f : Str) (ev : EventR)
    (hu : (findUser db u).isSome)
    (he : findEvent db e = some ev)
    (hnr : db.registrations.find? (regMatch u e) = none) :
    (ev.currentParticipants ≥ ev.maxParticipants →
      (registerSingle db now u e f).1 = RegOutcome.eventFull) ∧
    (ev.currentParticipants < ev.maxParticipants → now > ev.registrationDeadline →
      (registerSingle db now u e f).1 = RegOutcome.deadlinePassed) ∧
    (ev.currentParticipants < ev.maxParticipants → ¬ now > ev.registrationDeadline →
      (registerSingle db now u e f).1 = RegOutcome.success) ∧
    (ev.currentParticipants ≥ ev.maxParticipants →
      (registerMultiple db now u [(e, f)]).1 =
        some { totalEvents := 1, successfulRegistrations := 0,
               failedRegistrations := [(e, MultiReason.eventFull)],
               registrationIds := [] }) := by
  obtain ⟨user, husr⟩ := Option.isSome_iff_exists.mp hu
  refine ⟨?_, ?_, ?_, ?_⟩
  · intro hcap
    unfold registerSingle
    simp only [husr, he, hnr]
    rw [if_pos hcap]
  · intro hcap hdl
    unfold registerSingle
    simp only [husr, he, hnr]
    rw [if_neg (by omega), if_pos hdl]
  · intro hcap hdl
    unfold registerSingle
    simp only [husr, he, hnr]
    rw [if_neg (by omega), if_neg hdl]
  · intro hcap
    unfold registerMultiple
    simp only [husr, List.foldl]
    unfold registerMultipleStep
    simp only [hnr, he]
    rw [if_pos hcap]
    simp

/-- Witness for C8: the amended theorem applied to the concrete full,
past-deadline event. -/
theorem c8_witness :
    (registerSingle dbC8 1000 (strBytes "U1") (strBytes "E8") (strBytes "R8")).1 =
      RegOutcome.eventFull :=
  (c8_capacity_checked_before_deadline dbC8 1000 (strBytes "U1") (strBytes "E8") (strBytes "R8")
    event8 (by decide) (by decide) (by decide)).1 (by decide)

/-! ## C9: terminal statuses are never mutated, but unregistration deletes -/

def regAtt : RegistrationR :=
  { registrationId := strBytes "R9", userId := strBytes "U1", eventId := strBytes "E1",
    registeredAt := 100, status := RegStatus.attended,
    qrPayload := undefinedFieldsPayload, scanLogs := [] }

def dbC9 : Db := { users := [user1], events := [event1], registrations := [regAtt], scanLogs := [] }

/-- C9 (counterexample to the claim as stated): unregistration deletes the
registration record even when its status is attended, so registration records
are destroyed by a core operation other than administrative deletion. -/
theorem c9_counterexample :
    regAtt.status = RegStatus.attended ∧
    dbC9.registrations = [regAtt] ∧
    (unregister dbC9 (strBytes "U1") (strBytes "E1")).1 = UnregOutcome.success ∧
    ((unregister dbC9 (strBytes "U1") (strBytes "E1")).2).registrations = [] := by
  refine ⟨rfl, rfl, by decide, by decide⟩

/-- C9 (amended): the validator never mutates or removes a registration whose
status is attended or cancelled (those statuses are terminal for validation);
but unregistration deletes the pair-matching registration regardless of its
status, removing exactly one record. -/
theorem c9_terminal_status_validate_but_unregister_deletes (db : Db) (now : Time) (rq : VRequest)
    (r : RegistrationR) (hmem : r ∈ db.registrations)
    (hterm : r.status = RegStatus.attended ∨ r.status = RegStatus.cancelled) :
    r ∈ ((validate db now rq).2).registrations ∧
    (∀ u e rr, db.registrations.find? (regMatch u e) = some rr →
      (unregister db u e).1 = UnregOutcome.success ∧
      ((unregister db u e).2).registrations.length + 1 = db.registrations.length) := by
  constructor
  · by_cases hv : (validate db now rq).1 = VOutcome.valid
    · obtain ⟨p, reg, _, _, _, _, hft, hcanc, _, hatt, hdb⟩ := validate_valid_inversion db now rq hv
      rw [hdb]
      have hne : r ≠ reg := by
        intro hcontra
        subst hcontra
        rcases hterm with h | h
        · exact hatt h
        · exact hcanc h
      exact mem_updateFirst_of_ne (triplePred p) (commitScan (scanEntryOf now rq)) reg r
        db.registrations hft hmem hne
    · rw [validate_rejection_pure db now rq hv]
      exact hmem
  · intro u e rr hfind
    unfold unregister
    simp only [hfind]
    have hlen : (deleteFirst (regMatch u e) db.registrations).length + 1 = db.registrations.length :=
      deleteFirst_length (regMatch u e) rr db.registrations hfind
    cases hfe : findEvent { db with registrations := deleteFirst (regMatch u e) db.registrations } e with
    | none => exact ⟨rfl, hlen⟩
    | some ev =>
      dsimp only
      by_cases hzero : 0 < ev.currentParticipants
      · rw [if_pos hzero]
        exact ⟨rfl, hlen⟩
      · rw [if_neg hzero]
        exact ⟨rfl, hlen⟩

/-- Witness for C9: the amended theorem applied to the concrete database with
one attended registration and a rejected scan attempt. -/
theorem c9_witness :
    regAtt ∈ ((validate dbC9 1000 ⟨none, none, none, none⟩).2).registrations ∧
    (unregister dbC9 (strBytes "U1") (strBytes "E1")).1 = UnregOutcome.success ∧
    ((unregister dbC9 (strBytes "U1") (strBytes "E1")).2).registrations.length + 1 =
      dbC9.registrations.length := by
  obtain ⟨h1, h2⟩ := c9_terminal_status_validate_but_unregister_deletes dbC9 1000
    ⟨none, none, none, none⟩ regAtt (by decide) (Or.inl (by decide))
  exact ⟨h1, h2 (strBytes "U1") (strBytes "E1") regAtt (by decide)⟩

/-! ## C4: interleaved registrations over-book and lose counter updates -/

def event4 : EventR :=
  { id := strBytes "E4", title := strBytes "Finals", date := 5000,
    maxParticipants := 1, currentParticipants := 0, registrationDeadline := 2000 }

def dbC4 : Db := { users := [user1, user2], events := [event4], registrations := [], scanLogs := [] }

/-- C4: with one free slot and two requests interleaved at the await boundary
between the event read and the event save (read A, read B, save A, save B),
both registrations are created, so two attempts succeed where the claim allows
exactly one, and the final counter is 1 because the second save writes its
stale snapshot plus one over the first increment (a lost update).  The counter
update is a plain read-then-write, not an atomic increment-with-bound-check. -/
theorem c4_lost_update_overbooking :
    regReadPhase dbC4 1000 (strBytes "U1") (strBytes "E4") = some event4 ∧
    regReadPhase dbC4 1000 (strBytes "U2") (strBytes "E4") = some event4 ∧
    event4.maxParticipants = 1 ∧
    ((regCommitPhase (regCommitPhase dbC4 1000 (strBytes "U1") (strBytes "E4") (strBytes "RA")
        user1 event4) 1000 (strBytes "U2") (strBytes "E4") (strBytes "RB")
        user2 event4).registrations.length = 2 ∧
      (findEvent (regCommitPhase (regCommitPhase dbC4 1000 (strBytes "U1") (strBytes "E4")
        (strBytes "RA") user1 event4) 1000 (strBytes "U2") (strBytes "E4") (strBytes "RB")
        user2 event4) (strBytes "E4")).map (fun e => e.currentParticipants) = some 1) := by
  refine ⟨by decide, by decide, rfl, by decide, by decide⟩

/-! ## C2: the two issuance paths build the signed payload differently -/

def dbC2 : Db := { users := [user1], events := [event1], registrations := [], scanLogs := [] }

/-- C2: the multi-event path signs the stored payload over its own fields, and
that credential passes the signature check; but the single-event path computes
the signature from a wrapper object with camelCase keys, so the HMAC covers
the string "undefined:undefined:undefined:undefined" rather than the stored
payload fields, and the stored credential fails the validator signature check. -/
theorem c2_single_path_signature_broken :
    (registerSingle dbC2 1000 (strBytes "U1") (strBytes "E1") (strBytes "R2")).1 =
      RegOutcome.success ∧
    (((registerSingle dbC2 1000 (strBytes "U1") (strBytes "E1") (strBytes "R2")).2).registrations.head?).map
      (fun r => r.qrPayload.signature) = some (some (generateQRSignature undefinedFieldsPayload)) ∧
    (((registerSingle dbC2 1000 (strBytes "U1") (strBytes "E1") (strBytes "R2")).2).registrations.head?).map
      (fun r => validateQRSignature r.qrPayload) = some false ∧
    ((registerMultiple dbC2 1000 (strBytes "U1") [(strBytes "E1", strBytes "R2")]).1).map
      (fun res => res.successfulRegistrations) = some 1 ∧
    (((registerMultiple dbC2 1000 (strBytes "U1") [(strBytes "E1", strBytes "R2")]).2).registrations.head?).map
      (fun r => validateQRSignature r.qrPayload) = some true := by
  refine ⟨by decide, by decide, by decide, by decide, by decide⟩

/-! ## C3: a credential redeems at most once -/

/-- C3: if a validate call returns valid, the found registration is stored
with status attended; a subsequent validate of the same credential (while it
is not expired) returns duplicate and leaves the state unchanged; and no later
validate of that credential can ever return valid again. -/
theorem c3_single_use (db : Db) (now1 now2 : Time) (rq : VRequest) (p : QRPayload)
    (hq : rq.qrData = some p)
    (h1 : (validate db now1 rq).1 = VOutcome.valid)
    (hexp : expiryGuard now2 p = false) :
    ((findTriple ((validate db now1 rq).2) p).map (fun r => r.status) = some RegStatus.attended) ∧
    validate ((validate db now1 rq).2) now2 rq = (VOutcome.duplicate, (validate db now1 rq).2) ∧
    (∀ t : Time, (validate ((validate db now1 rq).2) t rq).1 ≠ VOutcome.valid) := by
  obtain ⟨p2, reg, hq2, hm, hsig, hev, hft, hcanc, hexp1, hatt, hdb⟩ :=
    validate_valid_inversion db now1 rq h1
  have hpp : p = p2 := by rw [hq] at hq2; exact Option.some_inj.mp hq2
  subst hpp
  have hpred : ∀ r, triplePred p (commitScan (scanEntryOf now1 rq) r) = triplePred p r :=
    fun r => rfl
  have hft2 : findTriple ((validate db now1 rq).2) p =
      some (commitScan (scanEntryOf now1 rq) reg) := by
    rw [hdb]
    show List.find? (triplePred p)
      (updateFirst (triplePred p) (commitScan (scanEntryOf now1 rq)) db.registrations) = _
    rw [find?_updateFirst (triplePred p) (commitScan (scanEntryOf now1 rq)) hpred]
    rw [show List.find? (triplePred p) db.registrations = some reg from hft]
    rfl
  have hattended : (commitScan (scanEntryOf now1 rq) reg).status = RegStatus.attended := rfl
  refine ⟨?_, ?_, ?_⟩
  · rw [hft2]
    rfl
  · exact validate_duplicate_eval ((validate db now1 rq).2) now2 rq p
      (commitScan (scanEntryOf now1 rq) reg) hq hm hsig hev hft2 hattended hexp
  · intro t hvalid
    obtain ⟨p3, reg3, hq3, _, _, _, hft3, _, _, hatt3, _⟩ :=
      validate_valid_inversion ((validate db now1 rq).2) t rq hvalid
    have hpp3 : p = p3 := by rw [hq] at hq3; exact Option.some_inj.mp hq3
    subst hpp3
    rw [hft2] at hft3
    exact hatt3 ((Option.some_inj.mp hft3).symm ▸ hattended)

/-- A correctly signed concrete scan payload matching `regW`. -/
def pW : QRPayload :=
  encodePayload
    { registration_id := some (strBytes "RW"), student_id := some (strBytes "U1"),
      event_id := some (strBytes "E1"), issued_at := some (strBytes "900"),
      expires_at := some (isoOf 5000), signature := none,
      event_title := none, student_name := none }

def regW : RegistrationR :=
  { registrationId := strBytes "RW", userId := strBytes "U1", eventId := strBytes "E1",
    registeredAt := 800, status := RegStatus.registered,
    qrPayload := pW, scanLogs := [] }

def dbW : Db := { users := [user1], events := [event1], registrations := [regW], scanLogs := [] }

def rqW : VRequest := ⟨some pW, none, none, none⟩

/-- Witness for C3: a concrete registered registration whose first scan at
time 900 is valid; the claim theorem then gives the attended status, the
duplicate on rescan at time 901, and that no rescan is ever valid. -/
theorem c3_witness :
    ((findTriple ((validate dbW 900 rqW).2) pW).map (fun r => r.status) =
      some RegStatus.attended) ∧
    validate ((validate dbW 900 rqW).2) 901 rqW = (VOutcome.duplicate, (validate dbW 900 rqW).2) ∧
    (∀ t : Time, (validate ((validate dbW 900 rqW).2) t rqW).1 ≠ VOutcome.valid) :=
  c3_single_use dbW 900 901 rqW pW rfl (by decide) (by decide)

/-! ## C7: expiry handling -/

/-- Evaluation of the handler on an expired payload whose earlier guards pass
and whose registration is found and not cancelled: the outcome is expired. -/
theorem validate_expired_eval (db : Db) (now : Time) (rq : VRequest)
    (p : QRPayload) (reg : RegistrationR)
    (hq : rq.qrData = some p)
    (h1 : missingRequiredFields p = false)
    (h2 : validateQRSignature p = true)
    (h3 : (!falsyField rq.eventId && decide (p.event_id ≠ rq.eventId)) = false)
    (h4 : findTriple db p = some reg)
    (h5 : reg.status ≠ RegStatus.cancelled)
    (h6 : expiryGuard now p = true) :
    validate db now rq = (VOutcome.expired, db) := by
  rcases rq with ⟨qd, ev, sb, loc⟩
  cases qd with
  | none => simp at hq
  | some p2 =>
    obtain rfl : p2 = p := by simpa using hq
    simp only at h3
    rw [validate_some, if_neg (by rw [h1]; decide), if_neg (by rw [h2]; decide),
      if_neg (by rw [h3]; decide)]
    simp only [h4]
    rw [if_neg h5, if_pos h6]

/-- C7 (amended): a payload whose expiry guard fires (expires_at present and
in the past) can never validate as valid; and when additionally the required
fields are present, the signature verifies, the event matches, and the
registration is found and not cancelled, the outcome is exactly expired.  A
payload failing an earlier guard is reported with that earlier rejection, not
as expired (see the counterexample). -/
theorem c7_expired_never_valid (db : Db) (now : Time) (rq : VRequest) (p : QRPayload)
    (hq : rq.qrData = some p)
    (hexp : expiryGuard now p = true) :
    ((validate db now rq).1 ≠ VOutcome.valid) ∧
    (∀ reg, missingRequiredFields p = false → validateQRSignature p = true →
      (!falsyField rq.eventId && decide (p.event_id ≠ rq.eventId)) = false →
      findTriple db p = some reg → reg.status ≠ RegStatus.cancelled →
      (validate db now rq).1 = VOutcome.expired) := by
  constructor
  · intro hvalid
    obtain ⟨p2, reg, hq2, _, _, _, _, _, hexp2, _, _⟩ :=
      validate_valid_inversion db now rq hvalid
    have hpp : p = p2 := by rw [hq] at hq2; exact Option.some_inj.mp hq2
    subst hpp
    rw [hexp] at hexp2
    exact Bool.true_eq_false.mp hexp2
  · intro reg h1 h2 h3 h4 h5
    rw [validate_expired_eval db now rq p reg hq h1 h2 h3 h4 h5 hexp]

/-- A correctly signed concrete payload that expired at time 500. -/
def pX : QRPayload :=
  encodePayload
    { registration_id := some (strBytes "RX"), student_id := some (strBytes "U1"),
      event_id := some (strBytes "E1"), issued_at := some (strBytes "100"),
      expires_at := some (isoOf 500), signature := none,
      event_title := none, student_name := none }

def regX : RegistrationR :=
  { registrationId := strBytes "RX", userId := strBytes "U1", eventId := strBytes "E1",
    registeredAt := 100, status := RegStatus.registered,
    qrPayload := pX, scanLogs := [] }

def dbX : Db := { users := [user1], events := [event1], registrations := [regX], scanLogs := [] }

/-- Witness for C7: the amended theorem at a concrete well-signed expired
credential scanned at time 1000. -/
theorem c7_witness :
    ((validate dbX 1000 ⟨some pX, none, none, none⟩).1 ≠ VOutcome.valid) ∧
    (validate dbX 1000 ⟨some pX, none, none, none⟩).1 = VOutcome.expired := by
  have h := c7_expired_never_valid dbX 1000 ⟨some pX, none, none, none⟩ pX rfl (by decide)
  exact ⟨h.1, h.2 regX (by decide) (by decide) (by decide) (by decide) (by decide)⟩

/-- The same expired payload with its signature replaced by the two-character
string "00", which hex-decodes to one byte and cannot match the digest. -/
def pXbad : QRPayload := { pX with signature := some (strBytes "00") }

/-- C7 (counterexample to the claim as stated): the signature check runs
before the expiry check, so an expired payload with a wrong signature is
rejected as a bad signature, not reported as expired — the outcome is not
expired regardless of signature correctness. -/
theorem c7_counterexample :
    expiryGuard 1000 pXbad = true ∧
    validate dbX 1000 ⟨some pXbad, none, none, none⟩ = (VOutcome.badSignature, dbX) ∧
    VOutcome.badSignature ≠ VOutcome.expired := by
  refine ⟨by decide, by decide, by decide⟩
